import Mathlib

/-!
Shallow embedding of the two index-generating utilities of this repository:

* `create_obsidian_index.py` — scans a tree for `*.md` files, groups them by
  parent directory and renders `index.md` with wiki-style links.
* `index_generator.py` — scans a tree for files, groups them into three
  fixed categories (Python scripts / markdown / configuration files) and
  renders `index.md` with relative hyperlinks.

The filesystem is modelled as the list of regular files reachable from the
scan root, each file given by its path relative to the root as the list of
path components, in the (implementation-defined) order `Path.rglob` yields
them.  Strings are handled through their underlying character lists so that
every definition reduces inside the kernel.  Python's per-character
`str.lower` agrees with `Char.toLower` on the ASCII inputs involved, and
Python's string comparison is lexicographic by code point, which is the
`List Char` order used below.  Python's `sorted`/`list.sort` are stable
sorts; `List.insertionSort` with the corresponding non-strict key order is
the same stable sort, hence produces the same list.
-/

namespace IndexTools

/-- A path relative to the scan root, as its non-empty list of components;
the last component is the file name. -/
abbrev RelPath := List String

/-- The file name of a relative path (its last component). -/
def fileName (p : RelPath) : String := p.getLastD ""

/-- The double-quote character. -/
def dquote : Char := Char.ofNat 34

/-- The apostrophe (single-quote) character. -/
def squote : Char := Char.ofNat 39

/-- Length of the `pathlib` suffix of a file name: `name[i:]` where `i` is
the index of the last dot, provided `0 < i < len(name) - 1`, else `0`. -/
def pySuffixLen (name : List Char) : Nat :=
  match (name.enum.filter (fun ic => ic.2 = Char.ofNat 46)).getLast? with
  | some ic => if 0 < ic.1 ∧ ic.1 < name.length - 1 then name.length - ic.1 else 0
  | none => 0

/-- `PurePath.suffix`: the extension of the file name, with the dot. -/
def pySuffix (name : String) : String :=
  String.mk (name.data.drop (name.data.length - pySuffixLen name.data))

/-- `PurePath.stem`: the file name without its `pySuffix`. -/
def pyStem (name : String) : String :=
  String.mk (name.data.take (name.data.length - pySuffixLen name.data))

/-- Python `str.lower`, per character (ASCII-faithful). -/
def pyLower (s : String) : String := String.mk (s.data.map Char.toLower)

/-- The lower-cased character list of a string, the sort key used by both
scripts for case-insensitive comparisons. -/
def lowerKey (s : String) : List Char := s.data.map Char.toLower

/-- Whether `s` ends with `suff` (this is what matching the glob pattern
`*.md` amounts to for a file name). -/
def strEndsWith (s suff : String) : Bool := suff.data.isSuffixOf s.data

/-- Whether `s` starts with `start` (Python `str.startswith`). -/
def strStartsWith (s start : String) : Bool := start.data.isPrefixOf s.data

/-- `str(p)` of a relative `PurePosixPath`: components joined by `/`. -/
def pathStr (p : RelPath) : String := String.intercalate "/" p

/-- Whether `pat` occurs as a contiguous substring of `l`
(Python `pat in s`). -/
def containsSub (pat : List Char) : List Char → Bool
  | [] => pat.isEmpty
  | c :: rest => pat.isPrefixOf (c :: rest) || containsSub pat rest

/-- Python `str.strip(bad)`: remove the characters of `bad` from both
ends. -/
def trimChars (bad : List Char) (l : List Char) : List Char :=
  ((l.dropWhile (fun c => bad.contains c)).reverse.dropWhile
    (fun c => bad.contains c)).reverse

/-- The ASCII whitespace characters stripped by Python `str.strip()`. -/
def wsChars : List Char :=
  [' ', Char.ofNat 9, Char.ofNat 10, Char.ofNat 13, Char.ofNat 11, Char.ofNat 12]

/-- Python `str.strip()` (whitespace at both ends). -/
def pyStrip (l : List Char) : List Char := trimChars wsChars l

/-- The state of the root directory handed to either tool: whether the
path exists, whether it is a directory, and the regular files below it
(in traversal order). -/
structure DirState where
  present : Bool
  isDir : Bool
  files : List RelPath
deriving DecidableEq

/-- Observable events of one invocation, in order: the scan of the tree
starting, an error message being printed, the output file being written. -/
inductive Event where
  | scanStart : Event
  | errorMsg : Event
  | wrote : Event
deriving DecidableEq

/-- The observable outcome of one invocation: the events in order, the
process exit code, and the output file's new content (`none` when the file
was not created or overwritten). -/
structure RunResult where
  events : List Event
  exitCode : Nat
  output : Option (List String)
deriving DecidableEq

end IndexTools

namespace create_obsidian_index

open IndexTools

/-- `str(rel_path.parent)`, with `"Root"` substituted for `"."`
(`scan_markdown_files`, lines 42). -/
def parentKey (p : RelPath) : String :=
  if p.dropLast.isEmpty then "Root" else String.intercalate "/" p.dropLast

/-- Append `v` to the group of key `k`, as inserting into a
`defaultdict(list)` does: the first entry with key `k` is extended, and a
missing key is appended at the end. -/
def addToGroup (g : List (String × List RelPath)) (k : String) (v : RelPath) :
    List (String × List RelPath) :=
  match g with
  | [] => [(k, [v])]
  | (k', vs) :: rest =>
      if k' = k then (k', vs ++ [v]) :: rest else (k', vs) :: addToGroup rest k v

/-- Whether a file is picked up by `scan_markdown_files`: it matches the
glob `*.md` and its name does not lower-case to `index.md`.  No other
exclusion (in particular none for hidden path components) is applied. -/
def keepsMdFile (p : RelPath) : Bool :=
  strEndsWith (fileName p) ".md" && !(pyLower (fileName p) == "index.md")

/-- The body of the `scan_markdown_files` loop: insert one file under its
parent-directory key. -/
def scanStep (g : List (String × List RelPath)) (p : RelPath) :
    List (String × List RelPath) :=
  addToGroup g (parentKey p) p

/-- `scan_markdown_files` (lines 21–48): group the matching files by
parent directory. -/
def scan_markdown_files (files : List RelPath) : List (String × List RelPath) :=
  (files.filter keepsMdFile).foldl scanStep []

/-- `create_obsidian_link` (lines 51–72): a wiki link
`[[rel_path_without_suffix|stem]]`. -/
def create_obsidian_link (p : RelPath) : String :=
  "[[" ++ String.intercalate "/" (p.dropLast ++ [pyStem (fileName p)]) ++
    "|" ++ pyStem (fileName p) ++ "]]"

/-- The sort key order on directory names used at line 108:
`(x != "Root", x.lower())` compared as a Python tuple. -/
def dirLe (a b : String) : Prop :=
  a = "Root" ∨ (b ≠ "Root" ∧ lowerKey a ≤ lowerKey b)

instance : DecidableRel dirLe := fun a b => by unfold dirLe; infer_instance

instance : IsTotal String dirLe where
  total a b := by
    by_cases ha : a = "Root"
    · exact Or.inl (Or.inl ha)
    · by_cases hb : b = "Root"
      · exact Or.inr (Or.inl hb)
      · rcases le_total (lowerKey a) (lowerKey b) with h | h
        · exact Or.inl (Or.inr ⟨hb, h⟩)
        · exact Or.inr (Or.inr ⟨ha, h⟩)

instance : IsTrans String dirLe where
  trans a b c hab hbc := by
    rcases hab with ha | ⟨hb, hab⟩
    · exact Or.inl ha
    · rcases hbc with hb' | ⟨hc, hbc⟩
      · exact absurd hb' hb
      · exact Or.inr ⟨hc, le_trans hab hbc⟩

/-- The sort key order on files used at line 131: `x.name.lower()`. -/
def fileLe (p q : RelPath) : Prop :=
  lowerKey (fileName p) ≤ lowerKey (fileName q)

instance : DecidableRel fileLe := fun p q => by unfold fileLe; infer_instance

instance : IsTotal RelPath fileLe where
  total p q := le_total (lowerKey (fileName p)) (lowerKey (fileName q))

instance : IsTrans RelPath fileLe where
  trans _ _ _ h1 h2 := le_trans h1 h2

/-- The group keys of the grouping, in insertion order
(`md_files.keys()`). -/
def groupKeys (g : List (String × List RelPath)) : List String := g.map (·.1)

/-- `md_files[k]`: the files recorded under key `k` (first matching
entry). -/
def lookupGroup (g : List (String × List RelPath)) (k : String) : List RelPath :=
  match g with
  | [] => []
  | (k', vs) :: rest => if k' = k then vs else lookupGroup rest k

/-- Line 108: `sorted(md_files.keys(), key=lambda x: (x != "Root",
x.lower()))` (a stable sort by that key). -/
def sortedDirs (g : List (String × List RelPath)) : List String :=
  List.insertionSort dirLe (groupKeys g)

/-- The anchor derived from a directory name at line 113:
`directory.lower().replace(' ', '-').replace('/', '-').replace('.', '')`. -/
def anchorOf (s : String) : String :=
  String.mk (((s.data.map Char.toLower).map
    (fun c => if c = ' ' ∨ c = '/' then '-' else c)).filter
      (fun c => c ≠ Char.ofNat 46))

/-- One table-of-contents line (lines 110–113). -/
def tocLine (dir : String) : String :=
  let disp := if dir = "Root" then "📁 Root Directory" else "📁 " ++ dir
  "- [" ++ disp ++ "](#" ++ anchorOf dir ++ ")"

/-- The lines of one per-directory section (lines 120–138). -/
def sectionLines (g : List (String × List RelPath)) (dir : String) : List String :=
  let files := lookupGroup g dir
  let disp := if dir = "Root" then "Root Directory" else dir
  ["## " ++ disp, "", "*" ++ toString files.length ++ " file(s)*", ""] ++
    (List.insertionSort fileLe files).map (fun p => "- " ++ create_obsidian_link p) ++
    [""]

/-- `generate_index_content` (lines 75–146), as the list of lines of the
rendered document; `timestamp` is the formatted wall-clock time. -/
def generate_index_content (g : List (String × List RelPath)) (timestamp : String) :
    List String :=
  ["# Obsidian Notes Index", "",
   "*Generated on: " ++ timestamp ++ "*", "",
   "## Statistics", "",
   "- **Total Files**: " ++ toString (g.map (·.2.length)).sum,
   "- **Total Directories**: " ++ toString g.length, "",
   "## Table of Contents", ""] ++
  (sortedDirs g).map tocLine ++
  ["", "---", ""] ++
  (sortedDirs g).flatMap (sectionLines g) ++
  ["---", "",
   "*This index was automatically generated. To regenerate, run `python create_obsidian_index.py`*",
   ""]

/-- The discovered files in the order their links are rendered: groups in
`sortedDirs` order, files within a group sorted by lower-cased name. -/
def renderedFiles (files : List RelPath) : List RelPath :=
  let g := scan_markdown_files files
  (sortedDirs g).flatMap (fun d => List.insertionSort fileLe (lookupGroup g d))

/-- `main` (lines 149–183): the existence check precedes the scan; an
empty result prints a message and exits 0 without writing; otherwise
`index.md` is written under the root. -/
def main (d : DirState) (timestamp : String) : RunResult :=
  if d.present && d.isDir then
    let g := scan_markdown_files d.files
    if g.isEmpty then ⟨[Event.scanStart], 0, none⟩
    else ⟨[Event.scanStart, Event.wrote], 0, some (generate_index_content g timestamp)⟩
  else ⟨[Event.errorMsg], 1, none⟩

end create_obsidian_index

namespace index_generator

open IndexTools

/-- The `default_ignores` list of `should_ignore` (lines 29–32). -/
def default_ignores : List String :=
  [".git", "__pycache__", ".pytest_cache", "venv", "env",
   ".vscode", ".idea", "node_modules", ".DS_Store", "index.md"]

/-- `should_ignore` (lines 15–42), called with no extra patterns: some
path component is in `default_ignores` or starts with a dot. -/
def should_ignore (parts : RelPath) : Bool :=
  parts.any (fun part => default_ignores.contains part || strStartsWith part ".")

/-- The `files_by_type` dictionary of `scan_directory`. -/
structure FilesByType where
  python_scripts : List RelPath
  markdown_files : List RelPath
  other_files : List RelPath
deriving DecidableEq

/-- The allow-list of configuration/text extensions (line 78). -/
def other_suffixes : List String :=
  [".txt", ".json", ".yaml", ".yml", ".toml", ".cfg", ".ini"]

/-- The per-file step of the `scan_directory` loop (lines 63–79): skip
ignored files, then append to the bucket of the first matching branch of
the `if`/`elif` chain; files matching no category are dropped. -/
def categorize (acc : FilesByType) (p : RelPath) : FilesByType :=
  if should_ignore p then acc
  else if pySuffix (fileName p) = ".py" then
    { acc with python_scripts := acc.python_scripts ++ [p] }
  else if pySuffix (fileName p) = ".md" then
    { acc with markdown_files := acc.markdown_files ++ [p] }
  else if other_suffixes.contains (pySuffix (fileName p)) then
    { acc with other_files := acc.other_files ++ [p] }
  else acc

/-- Whether a file lands in `python_scripts`. -/
def isScript (p : RelPath) : Bool :=
  !should_ignore p && (pySuffix (fileName p) == ".py")

/-- Whether a file lands in `markdown_files`. -/
def isMarkdown (p : RelPath) : Bool :=
  !should_ignore p && !(pySuffix (fileName p) == ".py") &&
    (pySuffix (fileName p) == ".md")

/-- Whether a file lands in `other_files`. -/
def isOther (p : RelPath) : Bool :=
  !should_ignore p && !(pySuffix (fileName p) == ".py") &&
    !(pySuffix (fileName p) == ".md") &&
    other_suffixes.contains (pySuffix (fileName p))

/-- Whether a file is kept by `scan_directory` at all. -/
def matchesCategory (p : RelPath) : Bool := isScript p || isMarkdown p || isOther p

/-- The order `list.sort()` uses on relative `PosixPath` values: their
component lists compared lexicographically, each component by code point
(case-sensitive). -/
def pathLe (p q : RelPath) : Prop := p.map String.data ≤ q.map String.data

instance : DecidableRel pathLe := fun p q => by unfold pathLe; infer_instance

instance : IsTotal RelPath pathLe where
  total p q := le_total (p.map String.data) (q.map String.data)

instance : IsTrans RelPath pathLe where
  trans _ _ _ h1 h2 := le_trans h1 h2

/-- `scan_directory` (lines 45–85): classify every file, then sort each
bucket. -/
def scan_directory (files : List RelPath) : FilesByType :=
  let raw := files.foldl categorize ⟨[], [], []⟩
  ⟨List.insertionSort pathLe raw.python_scripts,
   List.insertionSort pathLe raw.markdown_files,
   List.insertionSort pathLe raw.other_files⟩

/-- Three double quotes, the delimiter `'\x22\x22\x22'`. -/
def tqd : List Char := [dquote, dquote, dquote]

/-- Three apostrophes, the delimiter. -/
def tqs : List Char := [squote, squote, squote]

/-- The docstring-scanning loop of `get_file_description`
(lines 101–117), over the stripped lines; the result is the extracted
description (empty when the loop falls through or `break`s). -/
def docstringScan : List (List Char) → Bool → List Char
  | [], _ => []
  | line :: rest, inDoc =>
    let stripped := pyStrip line
    if containsSub tqd stripped || containsSub tqs stripped then
      if inDoc then []
      else
        let content := pyStrip (trimChars [squote] (trimChars [dquote] stripped))
        if content.isEmpty then docstringScan rest true else content
    else
      if inDoc then
        (if stripped.isEmpty then docstringScan rest true else stripped)
      else docstringScan rest false

/-- `get_file_description` (lines 88–121).  `readLines` is the result of
reading the file (`none` when any exception is raised, which the
`try`/`except` swallows); lines are modelled without their trailing
newline, which the leading `strip` discards anyway. -/
def get_file_description (p : RelPath) (readLines : Option (List String)) : String :=
  if pySuffix (fileName p) = ".py" then
    match readLines with
    | none => ""
    | some lines => String.mk (docstringScan (lines.map String.data) false)
  else ""

/-- An index entry without a description (lines 156, 164, 172). -/
def plainEntry (p : RelPath) : String :=
  "- [" ++ pathStr p ++ "](" ++ pathStr p ++ ")"

/-- The index entry of a Python script (lines 152–156): the description is
appended when it is non-empty.  `contents` maps each path to the result of
reading it. -/
def scriptEntry (contents : RelPath → Option (List String)) (p : RelPath) : String :=
  let d := get_file_description p (contents p)
  if d ≠ "" then plainEntry p ++ " - " ++ d else plainEntry p

/-- `generate_index` (lines 124–199), as the list of lines of the rendered
document. -/
def generate_index (files : List RelPath) (contents : RelPath → Option (List String))
    (timestamp : String) : List String :=
  let fbt := scan_directory files
  ["# Utility Tools Index", "",
   "*Generated on: " ++ timestamp ++ "*", "",
   "This index provides easy navigation to all utility tools in this repository.",
   ""] ++
  (if fbt.python_scripts.isEmpty then [] else
    ["## Python Scripts", ""] ++ fbt.python_scripts.map (scriptEntry contents) ++ [""]) ++
  (if fbt.markdown_files.isEmpty then [] else
    ["## Documentation", ""] ++ fbt.markdown_files.map plainEntry ++ [""]) ++
  (if fbt.other_files.isEmpty then [] else
    ["## Configuration Files", ""] ++ fbt.other_files.map plainEntry ++ [""]) ++
  ["---", "", "## How to Use", "",
   "Each tool in this repository is designed to be self-contained and easy to use.",
   "Check individual tool documentation for specific usage instructions.", "",
   "### Regenerating This Index", "",
   "To regenerate this index after adding new tools:", "",
   "```bash", "python index_generator.py", "```", ""]

/-- The discovered files in the order their links are rendered: the three
buckets concatenated, each sorted. -/
def renderedFiles (files : List RelPath) : List RelPath :=
  let fbt := scan_directory files
  fbt.python_scripts ++ fbt.markdown_files ++ fbt.other_files

/-- How many of the three category buckets contain `p`. -/
def bucketsContaining (fbt : FilesByType) (p : RelPath) : Nat :=
  [fbt.python_scripts, fbt.markdown_files, fbt.other_files].countP
    (fun l => decide (p ∈ l))

/-- The titles of the group sections, in the order `generate_index` emits
them (a section is omitted when its bucket is empty). -/
def sectionTitles (files : List RelPath) : List String :=
  let fbt := scan_directory files
  (if fbt.python_scripts.isEmpty then [] else ["Python Scripts"]) ++
  (if fbt.markdown_files.isEmpty then [] else ["Documentation"]) ++
  (if fbt.other_files.isEmpty then [] else ["Configuration Files"])

/-- The `## `-headed lines of a rendered document, without the marker. -/
def sectionHeaders (doc : List String) : List String :=
  (doc.filter (fun l => strStartsWith l "## ")).map
    (fun l => String.mk (l.data.drop 3))

/-- One full invocation through `main` (lines 202–226) and
`generate_index`.  There is no existence check on the root: `rglob` on a
missing or non-directory path yields nothing, so the scan runs (and finds
nothing) and the failure only surfaces when opening `root/output` for
writing raises, which `main` turns into exit code 1. -/
def run (d : DirState) (contents : RelPath → Option (List String))
    (timestamp : String) : RunResult :=
  let files := if d.present && d.isDir then d.files else []
  let doc := generate_index files contents timestamp
  if d.present && d.isDir then ⟨[Event.scanStart, Event.wrote], 0, some doc⟩
  else ⟨[Event.scanStart, Event.errorMsg], 1, none⟩

end index_generator


/-! ## Generic list lemmas -/

namespace IndexTools

open List

lemma count_eq_one_of_nodup_mem {α : Type} [BEq α] [LawfulBEq α] {l : List α}
    {a : α} (hnd : l.Nodup) (h : a ∈ l) : l.count a = 1 := by
  induction l with
  | nil => cases h
  | cons b rest ih =>
      rcases List.nodup_cons.1 hnd with ⟨hb, hrest⟩
      rcases List.mem_cons.1 h with h1 | h1
      · subst h1
        rw [List.count_cons_self, List.count_eq_zero.2 hb]
      · have hne : a ≠ b := fun hh => hb (hh ▸ h1)
        rw [List.count_cons_of_ne hne, ih hrest h1]

lemma count_eq_of_perm {α : Type} [BEq α] {l₁ l₂ : List α} (p : l₁ ~ l₂) (a : α) :
    l₁.count a = l₂.count a := by
  simpa [List.count_eq_countP] using p.countP_eq (· == a)

lemma flatMap_congr_mem {κ α : Type} (K : List κ) (f g : κ → List α)
    (h : ∀ k ∈ K, f k = g k) : K.flatMap f = K.flatMap g := by
  induction K with
  | nil => rfl
  | cons k rest ih =>
      rw [flatMap_cons, flatMap_cons, h k (mem_cons_self k rest),
        ih (fun x hx => h x (mem_cons_of_mem k hx))]

lemma flatMap_ite_cons_perm {κ α : Type} [DecidableEq κ] (K : List κ) (k0 : κ)
    (a : α) (h : κ → List α) (hnd : K.Nodup) (hk : k0 ∈ K) :
    (K.flatMap fun k => if k0 = k then a :: h k else h k) ~ a :: K.flatMap h := by
  induction K with
  | nil => cases hk
  | cons kh K' ih =>
      rcases List.nodup_cons.1 hnd with ⟨hnotin, hnd'⟩
      by_cases he : k0 = kh
      · subst he
        rw [flatMap_cons, if_pos rfl]
        rw [flatMap_congr_mem K' _ h
            (fun k hkmem => if_neg (fun hh => hnotin (by rw [hh]; exact hkmem))),
          flatMap_cons]
        exact Perm.refl _
      · have hk' : k0 ∈ K' := by
          rcases mem_cons.1 hk with h1 | h1
          · exact absurd h1 he
          · exact h1
        rw [flatMap_cons, if_neg he, flatMap_cons]
        calc h kh ++ (K'.flatMap fun k => if k0 = k then a :: h k else h k)
            ~ h kh ++ (a :: K'.flatMap h) := Perm.append_left _ (ih hnd' hk')
          _ ~ a :: (h kh ++ K'.flatMap h) := perm_middle

lemma flatMap_filter_key_perm {κ α : Type} [DecidableEq κ] [BEq κ] [LawfulBEq κ]
    (key : α → κ) (K : List κ) (hnd : K.Nodup) :
    ∀ l : List α, (∀ x ∈ l, key x ∈ K) →
      (K.flatMap fun k => l.filter (fun a => key a == k)) ~ l
  | [], _ => by
      rw [flatMap_congr_mem K _ (fun _ => []) (fun k _ => by simp)]
      simp
  | a :: rest, hcov => by
      have h1 : (K.flatMap fun k => (a :: rest).filter (fun x => key x == k)) =
          K.flatMap fun k => if key a = k then a :: rest.filter (fun x => key x == k)
            else rest.filter (fun x => key x == k) := by
        apply flatMap_congr_mem
        intro k _
        rw [filter_cons]
        by_cases he : key a = k
        · rw [if_pos (by simpa using he), if_pos he]
        · rw [if_neg (by simpa using he), if_neg he]
      rw [h1]
      refine (flatMap_ite_cons_perm K (key a) a _ hnd (hcov a (mem_cons_self a rest))).trans ?_
      exact Perm.cons a (flatMap_filter_key_perm key K hnd rest
        (fun x hx => hcov x (mem_cons_of_mem a hx)))

end IndexTools

/-! ## Helper lemmas: the directory-grouped variant -/

namespace create_obsidian_index

open IndexTools List

lemma lookupGroup_addToGroup (g : List (String × List RelPath)) (k : String)
    (v : RelPath) (k' : String) :
    lookupGroup (addToGroup g k v) k' =
      if k' = k then lookupGroup g k ++ [v] else lookupGroup g k' := by
  induction g with
  | nil =>
      by_cases h : k' = k
      · simp [addToGroup, lookupGroup, h]
      · simp [addToGroup, lookupGroup, h, Ne.symm h]
  | cons kv rest ih =>
      obtain ⟨k1, vs⟩ := kv
      by_cases h1 : k1 = k
      · subst h1
        by_cases h2 : k' = k1
        · subst h2
          simp [addToGroup, lookupGroup]
        · simp [addToGroup, lookupGroup, h2, show ¬(k1 = k') from fun hh => h2 hh.symm]
      · by_cases h2 : k' = k1
        · subst h2
          simp [addToGroup, lookupGroup, h1, show ¬(k' = k) from fun hh => h1 (hh ▸ rfl)]
        · simp [addToGroup, lookupGroup, h1, ih, show ¬(k1 = k') from fun hh => h2 hh.symm]

lemma groupKeys_cons (kv : String × List RelPath) (rest : List (String × List RelPath)) :
    groupKeys (kv :: rest) = kv.1 :: groupKeys rest := rfl

lemma groupKeys_addToGroup (g : List (String × List RelPath)) (k : String)
    (v : RelPath) :
    groupKeys (addToGroup g k v) =
      if k ∈ groupKeys g then groupKeys g else groupKeys g ++ [k] := by
  induction g with
  | nil => simp [addToGroup, groupKeys]
  | cons kv rest ih =>
      obtain ⟨k1, vs⟩ := kv
      by_cases h1 : k1 = k
      · subst h1
        have hstep : addToGroup ((k1, vs) :: rest) k1 v = (k1, vs ++ [v]) :: rest := by
          simp [addToGroup]
        rw [hstep, groupKeys_cons, groupKeys_cons,
          if_pos (show k1 ∈ k1 :: groupKeys rest from mem_cons_self _ _)]
      · have hstep : addToGroup ((k1, vs) :: rest) k v = (k1, vs) :: addToGroup rest k v := by
          simp [addToGroup, h1]
        have hne : ¬(k = k1) := fun hh => h1 hh.symm
        rw [hstep, groupKeys_cons, groupKeys_cons, ih]
        by_cases h2 : k ∈ groupKeys rest
        · rw [if_pos h2, if_pos (mem_cons_of_mem _ h2)]
        · rw [if_neg h2, if_neg (by simp [hne, h2]), cons_append]

lemma lookupGroup_foldl (l : List RelPath) (g : List (String × List RelPath))
    (k : String) :
    lookupGroup (l.foldl scanStep g) k =
      lookupGroup g k ++ l.filter (fun p => parentKey p == k) := by
  induction l generalizing g with
  | nil => simp
  | cons p rest ih =>
      simp only [foldl_cons, filter_cons, scanStep, ih, lookupGroup_addToGroup]
      by_cases h : parentKey p = k
      · simp [← h, append_assoc]
      · simp [h, Ne.symm h]

lemma mem_groupKeys_foldl_of_mem (l : List RelPath)
    (g : List (String × List RelPath)) (k : String) (h : k ∈ groupKeys g) :
    k ∈ groupKeys (l.foldl scanStep g) := by
  induction l generalizing g with
  | nil => exact h
  | cons p rest ih =>
      rw [foldl_cons]
      refine ih _ ?_
      unfold scanStep
      rw [groupKeys_addToGroup]
      split <;> simp [h]

lemma parentKey_mem_groupKeys_foldl (l : List RelPath)
    (g : List (String × List RelPath)) (p : RelPath) (hp : p ∈ l) :
    parentKey p ∈ groupKeys (l.foldl scanStep g) := by
  induction l generalizing g with
  | nil => cases hp
  | cons q rest ih =>
      rw [foldl_cons]
      rcases mem_cons.1 hp with h | h
      · subst h
        refine mem_groupKeys_foldl_of_mem _ _ _ ?_
        unfold scanStep
        rw [groupKeys_addToGroup]
        split <;> simp_all
      · exact ih _ h

lemma groupKeys_nodup_foldl (l : List RelPath) (g : List (String × List RelPath))
    (h : (groupKeys g).Nodup) : (groupKeys (l.foldl scanStep g)).Nodup := by
  induction l generalizing g with
  | nil => exact h
  | cons p rest ih =>
      rw [foldl_cons]
      refine ih _ ?_
      unfold scanStep
      rw [groupKeys_addToGroup]
      split
      · exact h
      · next hk => exact (perm_append_singleton _ _).nodup_iff.2 (List.nodup_cons.2 ⟨hk, h⟩)

lemma lookupGroup_scan (files : List RelPath) (k : String) :
    lookupGroup (scan_markdown_files files) k =
      (files.filter keepsMdFile).filter (fun p => parentKey p == k) := by
  have h : scan_markdown_files files = (files.filter keepsMdFile).foldl scanStep [] := rfl
  rw [h, lookupGroup_foldl]
  rfl

lemma groupKeys_scan_nodup (files : List RelPath) :
    (groupKeys (scan_markdown_files files)).Nodup :=
  groupKeys_nodup_foldl _ [] (by simp [groupKeys])

lemma parentKey_mem_groupKeys_scan (files : List RelPath) (p : RelPath)
    (h1 : p ∈ files) (h2 : keepsMdFile p = true) :
    parentKey p ∈ groupKeys (scan_markdown_files files) :=
  parentKey_mem_groupKeys_foldl _ [] p (mem_filter.2 ⟨h1, h2⟩)

lemma renderedFiles_perm (files : List RelPath) :
    renderedFiles files ~ files.filter keepsMdFile := by
  have h1 : renderedFiles files ~
      (sortedDirs (scan_markdown_files files)).flatMap
        (fun d => lookupGroup (scan_markdown_files files) d) :=
    Perm.flatMap_left _ (fun d _ => List.perm_insertionSort _ _)
  have h2 : (sortedDirs (scan_markdown_files files)).flatMap
        (fun d => lookupGroup (scan_markdown_files files) d) ~
      (groupKeys (scan_markdown_files files)).flatMap
        (fun d => lookupGroup (scan_markdown_files files) d) :=
    Perm.flatMap_right _ (List.perm_insertionSort _ _)
  have h3 : (groupKeys (scan_markdown_files files)).flatMap
        (fun d => lookupGroup (scan_markdown_files files) d) ~
      files.filter keepsMdFile := by
    rw [flatMap_congr_mem _ _
      (fun k => (files.filter keepsMdFile).filter (fun p => parentKey p == k))
      (fun k _ => lookupGroup_scan files k)]
    exact flatMap_filter_key_perm parentKey _ (groupKeys_scan_nodup files) _
      (fun x hx => parentKey_mem_groupKeys_scan files x (mem_filter.1 hx).1
        (mem_filter.1 hx).2)
  exact (h1.trans h2).trans h3

lemma mem_renderedFiles_iff (files : List RelPath) (p : RelPath) :
    p ∈ renderedFiles files ↔ p ∈ files ∧ keepsMdFile p = true := by
  rw [(renderedFiles_perm files).mem_iff, mem_filter]

end create_obsidian_index

/-! ## Helper lemmas: the category-grouped variant -/

namespace index_generator

open IndexTools List

lemma categorize_foldl (l : List RelPath) (acc : FilesByType) :
    l.foldl categorize acc =
      ⟨acc.python_scripts ++ l.filter isScript,
       acc.markdown_files ++ l.filter isMarkdown,
       acc.other_files ++ l.filter isOther⟩ := by
  induction l generalizing acc with
  | nil =>
      cases acc
      simp
  | cons p rest ih =>
      obtain ⟨s, m, o⟩ := acc
      rw [foldl_cons, ih]
      by_cases h1 : should_ignore p
      · have hc : categorize ⟨s, m, o⟩ p = ⟨s, m, o⟩ := by simp [categorize, h1]
        rw [hc]
        simp [filter_cons, isScript, isMarkdown, isOther, h1]
      · by_cases h2 : pySuffix (fileName p) = ".py"
        · have hc : categorize ⟨s, m, o⟩ p = ⟨s ++ [p], m, o⟩ := by
            simp [categorize, h1, h2]
          rw [hc]
          simp [filter_cons, isScript, isMarkdown, isOther, h1, h2, append_assoc]
        · by_cases h3 : pySuffix (fileName p) = ".md"
          · have hc : categorize ⟨s, m, o⟩ p = ⟨s, m ++ [p], o⟩ := by
              simp [categorize, h1, h2, h3]
            rw [hc]
            simp [filter_cons, isScript, isMarkdown, isOther, h1, h2, h3, append_assoc]
          · by_cases h4 : other_suffixes.contains (pySuffix (fileName p)) = true
            · have h4' : pySuffix (fileName p) ∈ other_suffixes := by simpa using h4
              have hc : categorize ⟨s, m, o⟩ p = ⟨s, m, o ++ [p]⟩ := by
                simp [categorize, h1, h2, h3, h4, h4']
              rw [hc]
              simp [filter_cons, isScript, isMarkdown, isOther, h1, h2, h3, h4, h4',
                append_assoc]
            · have h4' : pySuffix (fileName p) ∉ other_suffixes := by simpa using h4
              have hc : categorize ⟨s, m, o⟩ p = ⟨s, m, o⟩ := by
                simp [categorize, h1, h2, h3, h4, h4']
              rw [hc]
              simp [filter_cons, isScript, isMarkdown, isOther, h1, h2, h3, h4, h4']

lemma scan_directory_eq (files : List RelPath) :
    scan_directory files =
      ⟨List.insertionSort pathLe (files.filter isScript),
       List.insertionSort pathLe (files.filter isMarkdown),
       List.insertionSort pathLe (files.filter isOther)⟩ := by
  rw [scan_directory, categorize_foldl]
  simp

lemma renderedFiles2_perm (files : List RelPath) :
    renderedFiles files ~
      files.filter isScript ++ files.filter isMarkdown ++ files.filter isOther := by
  rw [renderedFiles, scan_directory_eq]
  exact ((List.perm_insertionSort _ _).append (List.perm_insertionSort _ _)).append
    (List.perm_insertionSort _ _)

lemma mem_scripts_iff (files : List RelPath) (p : RelPath) :
    p ∈ (scan_directory files).python_scripts ↔ p ∈ files ∧ isScript p = true := by
  rw [scan_directory_eq]
  exact (List.perm_insertionSort _ _).mem_iff.trans mem_filter

lemma mem_markdown_iff (files : List RelPath) (p : RelPath) :
    p ∈ (scan_directory files).markdown_files ↔ p ∈ files ∧ isMarkdown p = true := by
  rw [scan_directory_eq]
  exact (List.perm_insertionSort _ _).mem_iff.trans mem_filter

lemma mem_other_iff (files : List RelPath) (p : RelPath) :
    p ∈ (scan_directory files).other_files ↔ p ∈ files ∧ isOther p = true := by
  rw [scan_directory_eq]
  exact (List.perm_insertionSort _ _).mem_iff.trans mem_filter

lemma mem_renderedFiles2_iff (files : List RelPath) (p : RelPath) :
    p ∈ renderedFiles files ↔ p ∈ files ∧ matchesCategory p = true := by
  rw [(renderedFiles2_perm files).mem_iff]
  simp only [mem_append, mem_filter, matchesCategory, Bool.or_eq_true]
  constructor
  · rintro ((⟨h, hf⟩ | ⟨h, hf⟩) | ⟨h, hf⟩) <;> exact ⟨h, by simp [hf]⟩
  · rintro ⟨h, hf⟩
    rcases hf with (hf | hf) | hf
    · exact Or.inl (Or.inl ⟨h, hf⟩)
    · exact Or.inl (Or.inr ⟨h, hf⟩)
    · exact Or.inr ⟨h, hf⟩

lemma not_ignored_of_matches (p : RelPath) (h : matchesCategory p = true) :
    should_ignore p = false := by
  have h' : (isScript p = true ∨ isMarkdown p = true) ∨ isOther p = true := by
    simpa [matchesCategory] using h
  rcases h' with (hf | hf) | hf
  · simp only [isScript, Bool.and_eq_true, Bool.not_eq_true'] at hf
    exact hf.1
  · simp only [isMarkdown, Bool.and_eq_true, Bool.not_eq_true'] at hf
    exact hf.1.1
  · simp only [isOther, Bool.and_eq_true, Bool.not_eq_true'] at hf
    exact hf.1.1.1

end index_generator

/-! ## Helper lemmas: docstring extraction -/

namespace IndexTools

open List

lemma dropWhile_append_all {f : Char → Bool} (l1 l2 : List Char)
    (h : ∀ x ∈ l1, f x = true) : (l1 ++ l2).dropWhile f = l2.dropWhile f := by
  induction l1 with
  | nil => rfl
  | cons c rest ih =>
      rw [cons_append, dropWhile_cons, h c (mem_cons_self _ _)]
      exact if_pos rfl ▸ ih (fun x hx => h x (mem_cons_of_mem _ hx))

lemma dropWhile_head_false {f : Char → Bool} (l : List Char) (m : Char)
    (hh : l.head? = some m) (hm : f m = false) : l.dropWhile f = l := by
  cases l with
  | nil => rfl
  | cons c rest =>
      obtain rfl : c = m := by simpa using hh
      simp [dropWhile_cons, hm]

lemma trimChars_sandwich (bad pad1 pad2 mid : List Char)
    (hp1 : ∀ x ∈ pad1, bad.contains x = true)
    (hp2 : ∀ x ∈ pad2, bad.contains x = true)
    (m0 mN : Char) (hh : mid.head? = some m0) (hl : mid.getLast? = some mN)
    (h0 : bad.contains m0 = false) (hN : bad.contains mN = false) :
    trimChars bad (pad1 ++ mid ++ pad2) = mid := by
  unfold trimChars
  rw [append_assoc, dropWhile_append_all pad1 _ hp1]
  have h1 : (mid ++ pad2).dropWhile (fun c => bad.contains c) = mid ++ pad2 := by
    refine dropWhile_head_false _ m0 ?_ h0
    cases mid with
    | nil => cases hh
    | cons c r => simpa using hh
  rw [h1, reverse_append]
  rw [dropWhile_append_all pad2.reverse _ (fun x hx => hp2 x (by simpa using hx))]
  have h2 : mid.reverse.dropWhile (fun c => bad.contains c) = mid.reverse := by
    refine dropWhile_head_false _ mN ?_ hN
    rw [← List.getLast?_eq_head?_reverse]
    exact hl
  rw [h2, reverse_reverse]

lemma trimChars_no_ends (bad mid : List Char) (m0 mN : Char)
    (hh : mid.head? = some m0) (hl : mid.getLast? = some mN)
    (h0 : bad.contains m0 = false) (hN : bad.contains mN = false) :
    trimChars bad mid = mid := by
  have h := trimChars_sandwich bad [] [] mid (by simp) (by simp) m0 mN hh hl h0 hN
  simpa using h

end IndexTools

namespace index_generator

open IndexTools List

lemma docstringScan_nodelim_cons (line : List Char) (rest : List (List Char))
    (h1 : containsSub tqd (pyStrip line) = false)
    (h2 : containsSub tqs (pyStrip line) = false) :
    docstringScan (line :: rest) false = docstringScan rest false := by
  simp [docstringScan, h1, h2]

lemma docstringScan_nodelim_list (pre rest : List (List Char))
    (h : ∀ l ∈ pre, containsSub tqd (pyStrip l) = false ∧
      containsSub tqs (pyStrip l) = false) :
    docstringScan (pre ++ rest) false = docstringScan rest false := by
  induction pre with
  | nil => rfl
  | cons l pre' ih =>
      rw [cons_append, docstringScan_nodelim_cons l _ (h l (mem_cons_self _ _)).1
        (h l (mem_cons_self _ _)).2]
      exact ih (fun x hx => h x (mem_cons_of_mem _ hx))

lemma docstringScan_blank_cons (line : List Char) (rest : List (List Char))
    (h : pyStrip line = []) :
    docstringScan (line :: rest) true = docstringScan rest true := by
  have h1 : containsSub tqd ([] : List Char) = false := by decide
  have h2 : containsSub tqs ([] : List Char) = false := by decide
  simp [docstringScan, h, h1, h2]

lemma docstringScan_blank_list (blanks rest : List (List Char))
    (h : ∀ l ∈ blanks, pyStrip l = []) :
    docstringScan (blanks ++ rest) true = docstringScan rest true := by
  induction blanks with
  | nil => rfl
  | cons l bl ih =>
      rw [cons_append, docstringScan_blank_cons l _ (h l (mem_cons_self _ _))]
      exact ih (fun x hx => h x (mem_cons_of_mem _ hx))

lemma docstringScan_opener_plain (line : List Char) (rest : List (List Char))
    (hop : pyStrip line = tqd) :
    docstringScan (line :: rest) false = docstringScan rest true := by
  have h1 : (containsSub tqd tqd || containsSub tqs tqd) = true := by decide
  have h2 : (pyStrip (trimChars [squote] (trimChars [dquote] tqd))).isEmpty = true := by
    decide
  simp [docstringScan, hop, h1, h2]

lemma docstringScan_content (line : List Char) (rest : List (List Char))
    (h1 : containsSub tqd (pyStrip line) = false)
    (h2 : containsSub tqs (pyStrip line) = false)
    (h3 : (pyStrip line).isEmpty = false) :
    docstringScan (line :: rest) true = pyStrip line := by
  simp [docstringScan, h1, h2, h3]

lemma docstringScan_opener_inline (line : List Char) (rest : List (List Char))
    (mid : List Char) (hop : pyStrip line = tqd ++ mid ++ tqd)
    (m0 mN : Char) (hh : mid.head? = some m0) (hl : mid.getLast? = some mN)
    (h0 : m0 ≠ dquote) (h0' : m0 ≠ squote) (hN : mN ≠ dquote) (hN' : mN ≠ squote)
    (hmid : (pyStrip mid).isEmpty = false) :
    docstringScan (line :: rest) false = pyStrip mid := by
  have hcq : containsSub tqd (tqd ++ mid ++ tqd) = true := by
    rw [append_assoc]
    show containsSub tqd (dquote :: dquote :: dquote :: (mid ++ tqd)) = true
    simp [containsSub, List.isPrefixOf]
  have htrim1 : trimChars [dquote] (tqd ++ mid ++ tqd) = mid := by
    refine trimChars_sandwich _ _ _ _ ?_ ?_ m0 mN hh hl ?_ ?_ <;>
      simp [tqd, h0, hN]
  have htrim2 : trimChars [squote] mid = mid := by
    refine trimChars_no_ends _ _ m0 mN hh hl ?_ ?_ <;> simp [h0', hN']
  simp only [docstringScan, hop, htrim1, htrim2, hmid, hcq, Bool.true_or, if_true,
    Bool.false_eq_true, if_false]

end index_generator

/-! ## Claim theorems -/

open IndexTools

/-- C1, counterexample: in the directory-grouped variant
(`create_obsidian_index.py`), the file `.git/z.md` of the spec's own
example tree `a/x.md`, `b/y.md`, `.git/z.md` does appear in the rendered
index (grouped under `.git`), even though its first path component starts
with the hidden-file marker `.` — the scan applies no hidden-component
exclusion. -/
theorem c1_counterexample :
    [".git", "z.md"] ∈ create_obsidian_index.renderedFiles
        [["a", "x.md"], ["b", "y.md"], [".git", "z.md"]] ∧
    strStartsWith ".git" "." = true := by
  decide

/-- C2, counterexample: on a root that exists and contains no matching
file at all, the category-grouped variant (`index_generator.py`) still
creates/overwrites the output file (and exits 0), contradicting the claim
that no variant writes the output when zero matching files are found. -/
theorem c2_counterexample :
    index_generator.scan_directory ([] : List RelPath) =
      ⟨[], [], []⟩ ∧
    (index_generator.run ⟨true, true, []⟩ (fun _ => none) "ts").output ≠ none ∧
    (index_generator.run ⟨true, true, []⟩ (fun _ => none) "ts").exitCode = 0 := by
  refine ⟨by decide, ?_, by decide⟩
  intro h
  simp [index_generator.run] at h

/-- C3, counterexample: on a missing root, the category-grouped variant
(`index_generator.py`) does not surface any error before traversal:
its first observable event is the scan starting (`rglob` on a missing path
silently yields nothing), and the failure only arises afterwards, when
opening the output file for writing raises. -/
theorem c3_counterexample :
    (index_generator.run ⟨false, false, []⟩ (fun _ => none) "ts").events.head? ≠
      some Event.errorMsg ∧
    (index_generator.run ⟨false, false, []⟩ (fun _ => none) "ts").events =
      [Event.scanStart, Event.errorMsg] := by
  decide

/-- C4, counterexample: with the output name configured as `notes.md` via
`--output`, a tree file named `notes.md` is still listed by the
category-grouped variant — `should_ignore` only knows the hard-coded name
`index.md` and is never told the configured output name. -/
theorem c4_counterexample :
    ["notes.md"] ∈ index_generator.renderedFiles [["notes.md"]] ∧
    fileName ["notes.md"] = "notes.md" := by
  decide

/-- C6, counterexample: in the category-grouped variant the section
`Python Scripts` is rendered before `Configuration Files`, although
`configuration files` precedes `python scripts` in case-insensitive order,
so the group sections are not sorted case-insensitively by name. -/
theorem c6_counterexample :
    ((index_generator.generate_index [["a.py"], ["b.txt"]] (fun _ => none)
        "ts").indexOf "## Python Scripts" <
      (index_generator.generate_index [["a.py"], ["b.txt"]] (fun _ => none)
        "ts").indexOf "## Configuration Files") ∧
    "## Configuration Files" ∈ index_generator.generate_index [["a.py"], ["b.txt"]]
      (fun _ => none) "ts" ∧
    lowerKey "Configuration Files" < lowerKey "Python Scripts" := by
  decide

/-- C7, counterexample: the category-grouped variant sorts the files of a
group by `Path` comparison, which is case-sensitive: with files `B.md` and
`a.md`, `B.md` is rendered first although `a.md` precedes it
case-insensitively. -/
theorem c7_counterexample :
    (index_generator.scan_directory [["B.md"], ["a.md"]]).markdown_files =
      [["B.md"], ["a.md"]] ∧
    lowerKey (fileName ["a.md"]) < lowerKey (fileName ["B.md"]) := by
  decide

/-- C8: for a fixed tree (hence a fixed traversal list), two runs of the
same variant render documents that agree on every line except the
generation-timestamp line, which is line index 2 in both documents; in
particular the groups appear in the same order. -/
theorem c8_idempotent_modulo_timestamp (files : List RelPath)
    (c : RelPath → Option (List String)) (ts1 ts2 : String) :
    (create_obsidian_index.generate_index_content
        (create_obsidian_index.scan_markdown_files files) ts1).eraseIdx 2 =
      (create_obsidian_index.generate_index_content
        (create_obsidian_index.scan_markdown_files files) ts2).eraseIdx 2 ∧
    (create_obsidian_index.generate_index_content
        (create_obsidian_index.scan_markdown_files files) ts1)[2]? =
      some ("*Generated on: " ++ ts1 ++ "*") ∧
    (index_generator.generate_index files c ts1).eraseIdx 2 =
      (index_generator.generate_index files c ts2).eraseIdx 2 ∧
    (index_generator.generate_index files c ts1)[2]? =
      some ("*Generated on: " ++ ts1 ++ "*") := by
  exact ⟨rfl, rfl, rfl, rfl⟩

/-- C2, amended: when zero matching files are found on an existing root,
the directory-grouped variant reports this, exits 0 and writes nothing,
while the category-grouped variant also exits 0 but still writes the
output document (one with no group sections). -/
theorem c2_amended (d : DirState) (c : RelPath → Option (List String))
    (ts : String) (hp : d.present = true) (hd : d.isDir = true)
    (h1 : create_obsidian_index.scan_markdown_files d.files = [])
    (_h2 : index_generator.scan_directory d.files = ⟨[], [], []⟩) :
    create_obsidian_index.main d ts = ⟨[Event.scanStart], 0, none⟩ ∧
    (index_generator.run d c ts).exitCode = 0 ∧
    (index_generator.run d c ts).output =
      some (index_generator.generate_index d.files c ts) := by
  refine ⟨?_, ?_, ?_⟩
  · simp [create_obsidian_index.main, hp, hd, h1]
  · simp [index_generator.run, hp, hd]
  · simp [index_generator.run, hp, hd]

/-- Witness for `c2_amended` at the empty tree. -/
theorem c2_amended_witness :
    create_obsidian_index.main ⟨true, true, []⟩ "ts" = ⟨[Event.scanStart], 0, none⟩ ∧
    (index_generator.run ⟨true, true, []⟩ (fun _ => none) "ts").exitCode = 0 := by
  have h := c2_amended ⟨true, true, []⟩ (fun _ => none) "ts" rfl rfl (by decide) (by decide)
  exact ⟨h.1, h.2.1⟩

/-- C3, amended: on a missing or non-directory root both variants exit 1
and write no output, but only the directory-grouped variant detects the
condition before any traversal (its sole event is the error); the
category-grouped variant performs the scan first (finding nothing) and
fails only at the write step. -/
theorem c3_amended (d : DirState) (c : RelPath → Option (List String))
    (ts : String) (h : ¬(d.present = true ∧ d.isDir = true)) :
    create_obsidian_index.main d ts = ⟨[Event.errorMsg], 1, none⟩ ∧
    index_generator.run d c ts = ⟨[Event.scanStart, Event.errorMsg], 1, none⟩ := by
  have hb : (d.present && d.isDir) = false := by
    cases hp : d.present <;> cases hd : d.isDir <;> simp_all
  constructor
  · simp [create_obsidian_index.main, hb]
  · simp [index_generator.run, hb]

/-- Witness for `c3_amended` at a missing root. -/
theorem c3_amended_witness :
    create_obsidian_index.main ⟨false, false, []⟩ "ts" = ⟨[Event.errorMsg], 1, none⟩ ∧
    index_generator.run ⟨false, false, []⟩ (fun _ => none) "ts" =
      ⟨[Event.scanStart, Event.errorMsg], 1, none⟩ :=
  c3_amended ⟨false, false, []⟩ (fun _ => none) "ts" (by decide)

/-- C1, amended: the hidden-component exclusion holds in the
category-grouped variant — no rendered file has any path component
starting with `.` — but the directory-grouped variant applies no such
exclusion: it renders every `*.md` file whose name does not lower-case to
`index.md`, hidden path components included. -/
theorem c1_amended (files : List RelPath) (p : RelPath) :
    (p ∈ index_generator.renderedFiles files →
      ∀ comp ∈ p, strStartsWith comp "." = false) ∧
    (p ∈ files → strEndsWith (fileName p) ".md" = true →
      pyLower (fileName p) ≠ "index.md" →
      p ∈ create_obsidian_index.renderedFiles files) := by
  constructor
  · intro hmem comp hcomp
    have hmc : index_generator.matchesCategory p = true :=
      ((index_generator.mem_renderedFiles2_iff files p).1 hmem).2
    have hig : index_generator.should_ignore p = false :=
      index_generator.not_ignored_of_matches p hmc
    have hall := List.any_eq_false.1 hig comp hcomp
    simp only [Bool.or_eq_true, not_or] at hall
    exact Bool.not_eq_true _ ▸ (Bool.eq_false_iff.2 (fun hst => hall.2 hst))
  · intro h1 h2 h3
    refine (create_obsidian_index.mem_renderedFiles_iff files p).2 ⟨h1, ?_⟩
    simp [create_obsidian_index.keepsMdFile, h2, h3]

/-- Witness for `c1_amended`: the hidden file `.git/z.md` is indexed by
the directory-grouped variant, and a kept file of the category-grouped
variant has no hidden component. -/
theorem c1_amended_witness :
    [".git", "z.md"] ∈ create_obsidian_index.renderedFiles
        [[".git", "z.md"], ["a", "x.md"]] ∧
    strStartsWith "a" "." = false :=
  ⟨(c1_amended [[".git", "z.md"], ["a", "x.md"]] [".git", "z.md"]).2
      (by decide) (by decide) (by decide),
   (c1_amended [["a", "b.py"]] ["a", "b.py"]).1 (by decide) "a" (by decide)⟩

/-- C4, amended: the name excluded from the listing is the hard-coded
`index.md`, not the configured output name — in the category-grouped
variant no rendered file has any component equal (case-sensitively) to
`index.md`, and in the directory-grouped variant no rendered file has a
name that lower-cases to `index.md`; a custom `--output` name is not
excluded (see the counterexample). -/
theorem c4_amended (files : List RelPath) (p : RelPath) :
    (p ∈ index_generator.renderedFiles files → ∀ comp ∈ p, comp ≠ "index.md") ∧
    (p ∈ create_obsidian_index.renderedFiles files →
      pyLower (fileName p) ≠ "index.md") := by
  constructor
  · intro hmem comp hcomp heq
    have hmc : index_generator.matchesCategory p = true :=
      ((index_generator.mem_renderedFiles2_iff files p).1 hmem).2
    have hig : index_generator.should_ignore p = false :=
      index_generator.not_ignored_of_matches p hmc
    have hall := List.any_eq_false.1 hig comp hcomp
    simp only [Bool.or_eq_true, not_or] at hall
    apply hall.1
    subst heq
    decide
  · intro hmem
    have hk : create_obsidian_index.keepsMdFile p = true :=
      ((create_obsidian_index.mem_renderedFiles_iff files p).1 hmem).2
    simp only [create_obsidian_index.keepsMdFile, Bool.and_eq_true,
      Bool.not_eq_true'] at hk
    simpa using hk.2

/-- Witness for `c4_amended` on a small tree. -/
theorem c4_amended_witness :
    ("docs" : String) ≠ "index.md" ∧
    pyLower (fileName [["docs", "a.md"]].head!) ≠ "index.md" :=
  ⟨(c4_amended [["docs", "a.md"]] ["docs", "a.md"]).1 (by decide) "docs" (by decide),
   (c4_amended [["docs", "a.md"]] ["docs", "a.md"]).2 (by decide)⟩

/-- C10: the directory-grouped variant skips every file whose name
lower-cases to `index.md`, so such a file appears in no group of the
grouping and never in the rendered index. -/
theorem c10_index_md_case_insensitive (files : List RelPath) (p : RelPath)
    (h : pyLower (fileName p) = "index.md") :
    p ∉ create_obsidian_index.renderedFiles files ∧
    ∀ k, p ∉ create_obsidian_index.lookupGroup
      (create_obsidian_index.scan_markdown_files files) k := by
  have hkeep : create_obsidian_index.keepsMdFile p = false := by
    simp [create_obsidian_index.keepsMdFile, h]
  constructor
  · intro hmem
    have := ((create_obsidian_index.mem_renderedFiles_iff files p).1 hmem).2
    rw [hkeep] at this
    cases this
  · intro k hmem
    rw [create_obsidian_index.lookupGroup_scan] at hmem
    have h1 := (List.mem_filter.1 hmem).1
    have h2 := (List.mem_filter.1 h1).2
    rw [hkeep] at h2
    cases h2

/-- Witness for `c10_index_md_case_insensitive` at `INDEX.md`. -/
theorem c10_index_md_case_insensitive_witness :
    pyLower (fileName ["INDEX.md"]) = "index.md" ∧
    ["INDEX.md"] ∉ create_obsidian_index.renderedFiles [["INDEX.md"], ["a.md"]] :=
  ⟨by decide,
   (c10_index_md_case_insensitive [["INDEX.md"], ["a.md"]] ["INDEX.md"] (by decide)).1⟩

namespace create_obsidian_index

open IndexTools List

lemma sortedDirs_sorted (g : List (String × List RelPath)) :
    List.Sorted dirLe (sortedDirs g) :=
  List.sorted_insertionSort dirLe _

lemma sorted_dirLe_head (l : List String) (hs : List.Sorted dirLe l)
    (hm : "Root" ∈ l) : l.head? = some "Root" := by
  cases l with
  | nil => cases hm
  | cons x rest =>
      by_cases hx : x = "Root"
      · rw [hx]
        rfl
      · rcases mem_cons.1 hm with h | h
        · exact absurd h.symm hx
        · rcases rel_of_sorted_cons hs _ h with h1 | ⟨h2, _⟩
          · exact absurd h1 hx
          · exact absurd rfl h2

lemma sortedDirs_filter_sorted (g : List (String × List RelPath)) :
    List.Sorted (fun a b => lowerKey a ≤ lowerKey b)
      ((sortedDirs g).filter (fun d => d ≠ "Root")) := by
  have hp : List.Pairwise dirLe ((sortedDirs g).filter (fun d => d ≠ "Root")) :=
    (sortedDirs_sorted g).filter _
  refine List.Pairwise.imp_of_mem ?_ hp
  intro a b ha _ hab
  have ha' : a ≠ "Root" := by simpa using (mem_filter.1 ha).2
  rcases hab with h1 | ⟨_, h3⟩
  · exact absurd h1 ha'
  · exact h3

end create_obsidian_index

namespace index_generator

open IndexTools List

lemma not_header_cons (c0 : Char) (l : List Char) (hc : (('#' : Char) == c0) = false) :
    ("## ".data).isPrefixOf (c0 :: l) = false := by
  show (('#' : Char) :: '#' :: ' ' :: []).isPrefixOf (c0 :: l) = false
  simp [List.isPrefixOf, hc]

lemma ts_line_not_header (ts : String) :
    strStartsWith ("*Generated on: " ++ ts ++ "*") "## " = false := by
  unfold strStartsWith
  rw [String.data_append, String.data_append,
    show "*Generated on: ".data = '*' :: "Generated on: ".data from rfl]
  exact not_header_cons '*' _ (by decide)

lemma plainEntry_not_header (p : RelPath) :
    strStartsWith (plainEntry p) "## " = false := by
  unfold strStartsWith plainEntry
  simp only [String.data_append, List.append_assoc]
  exact not_header_cons '-' _ (by decide)

lemma scriptEntry_not_header (c : RelPath → Option (List String)) (p : RelPath) :
    strStartsWith (scriptEntry c p) "## " = false := by
  have h : scriptEntry c p =
      if get_file_description p (c p) ≠ "" then
        plainEntry p ++ " - " ++ get_file_description p (c p)
      else plainEntry p := rfl
  rw [h]
  split
  · unfold strStartsWith plainEntry
    simp only [String.data_append, List.append_assoc]
    exact not_header_cons '-' _ (by decide)
  · exact plainEntry_not_header p

lemma filter_map_not_header {f : RelPath → String}
    (h : ∀ p, strStartsWith (f p) "## " = false) :
    ∀ l : List RelPath,
      (l.map f).filter (fun s => strStartsWith s "## ") = []
  | [] => rfl
  | p :: rest => by
      rw [map_cons, filter_cons, if_neg (by simp [h p])]
      exact filter_map_not_header h rest

lemma sectionHeaders_generate_index (files : List RelPath)
    (c : RelPath → Option (List String)) (ts : String) :
    sectionHeaders (generate_index files c ts) =
      sectionTitles files ++ ["How to Use"] := by
  have e1 : strStartsWith "# Utility Tools Index" "## " = false := by decide
  have e2 : strStartsWith "" "## " = false := by decide
  have e3 : strStartsWith
    "This index provides easy navigation to all utility tools in this repository."
    "## " = false := by decide
  have e4 : strStartsWith "## Python Scripts" "## " = true := by decide
  have e5 : strStartsWith "## Documentation" "## " = true := by decide
  have e6 : strStartsWith "## Configuration Files" "## " = true := by decide
  have e7 : strStartsWith "---" "## " = false := by decide
  have e8 : strStartsWith "## How to Use" "## " = true := by decide
  have e9 : strStartsWith
    "Each tool in this repository is designed to be self-contained and easy to use."
    "## " = false := by decide
  have e10 : strStartsWith
    "Check individual tool documentation for specific usage instructions."
    "## " = false := by decide
  have e11 : strStartsWith "### Regenerating This Index" "## " = false := by decide
  have e12 : strStartsWith "To regenerate this index after adding new tools:"
    "## " = false := by decide
  have e13 : strStartsWith "```bash" "## " = false := by decide
  have e14 : strStartsWith "python index_generator.py" "## " = false := by decide
  have e15 : strStartsWith "```" "## " = false := by decide
  have d1 : String.mk ("## Python Scripts".data.drop 3) = "Python Scripts" := by
    decide
  have d2 : String.mk ("## Documentation".data.drop 3) = "Documentation" := by
    decide
  have d3 : String.mk ("## Configuration Files".data.drop 3) =
      "Configuration Files" := by decide
  have d4 : String.mk ("## How to Use".data.drop 3) = "How to Use" := by decide
  unfold sectionHeaders generate_index sectionTitles
  by_cases h1 : (scan_directory files).python_scripts.isEmpty = true <;>
  by_cases h2 : (scan_directory files).markdown_files.isEmpty = true <;>
  by_cases h3 : (scan_directory files).other_files.isEmpty = true <;>
  simp [h1, h2, h3, List.filter_append, List.filter_cons,
    ts_line_not_header ts, filter_map_not_header (scriptEntry_not_header c),
    filter_map_not_header plainEntry_not_header,
    e1, e2, e3, e4, e5, e6, e7, e8, e9, e10, e11, e12, e13, e14, e15,
    d1, d2, d3, d4]

end index_generator

/-- C6, amended: in the directory-grouped variant the synthetic `Root`
group (when present) is rendered first and the remaining groups follow in
case-insensitive name order; the category-grouped variant instead renders
its group sections in the fixed hard-coded order `Python Scripts`,
`Documentation`, `Configuration Files` (each omitted when empty), which is
not a case-insensitive sort (see the counterexample). -/
theorem c6_amended (files : List RelPath) (c : RelPath → Option (List String))
    (ts : String) :
    (("Root" ∈ create_obsidian_index.sortedDirs
        (create_obsidian_index.scan_markdown_files files)) →
      (create_obsidian_index.sortedDirs
        (create_obsidian_index.scan_markdown_files files)).head? = some "Root") ∧
    List.Sorted (fun a b => lowerKey a ≤ lowerKey b)
      ((create_obsidian_index.sortedDirs
        (create_obsidian_index.scan_markdown_files files)).filter
          (fun d => d ≠ "Root")) ∧
    List.Sublist (index_generator.sectionTitles files)
      ["Python Scripts", "Documentation", "Configuration Files"] ∧
    index_generator.sectionHeaders (index_generator.generate_index files c ts) =
      index_generator.sectionTitles files ++ ["How to Use"] := by
  refine ⟨?_, ?_, ?_, index_generator.sectionHeaders_generate_index files c ts⟩
  · intro hm
    exact create_obsidian_index.sorted_dirLe_head _
      (create_obsidian_index.sortedDirs_sorted _) hm
  · exact create_obsidian_index.sortedDirs_filter_sorted _
  · unfold index_generator.sectionTitles
    by_cases h1 : (index_generator.scan_directory files).python_scripts.isEmpty = true <;>
    by_cases h2 : (index_generator.scan_directory files).markdown_files.isEmpty = true <;>
    by_cases h3 : (index_generator.scan_directory files).other_files.isEmpty = true <;>
    simp [h1, h2, h3]

/-- Witness for `c6_amended`: with a file directly under the root and one
in `docs`, the rendered group order starts with `Root`. -/
theorem c6_amended_witness :
    (create_obsidian_index.sortedDirs (create_obsidian_index.scan_markdown_files
      [["a.md"], ["docs", "b.md"]])).head? = some "Root" :=
  (c6_amended [["a.md"], ["docs", "b.md"]] (fun _ => none) "ts").1 (by decide)

/-- C7, amended: within a group, the directory-grouped variant sorts files
case-insensitively by file name, but the category-grouped variant sorts its
buckets by `Path` order — lexicographic on the path components by code
point, case-sensitively (see the counterexample for the case-sensitivity). -/
theorem c7_amended (files : List RelPath) (d : String) :
    List.Sorted (fun p q => lowerKey (fileName p) ≤ lowerKey (fileName q))
      (List.insertionSort create_obsidian_index.fileLe
        (create_obsidian_index.lookupGroup
          (create_obsidian_index.scan_markdown_files files) d)) ∧
    List.Sorted (fun p q : RelPath => p.map String.data ≤ q.map String.data)
      (index_generator.scan_directory files).python_scripts ∧
    List.Sorted (fun p q : RelPath => p.map String.data ≤ q.map String.data)
      (index_generator.scan_directory files).markdown_files ∧
    List.Sorted (fun p q : RelPath => p.map String.data ≤ q.map String.data)
      (index_generator.scan_directory files).other_files := by
  refine ⟨List.sorted_insertionSort create_obsidian_index.fileLe _, ?_, ?_, ?_⟩ <;>
    rw [index_generator.scan_directory_eq] <;>
    exact List.sorted_insertionSort index_generator.pathLe _

namespace index_generator

open IndexTools List

lemma flags_split (p : RelPath) (h : matchesCategory p = true) :
    (isScript p = true ∧ isMarkdown p = false ∧ isOther p = false) ∨
    (isScript p = false ∧ isMarkdown p = true ∧ isOther p = false) ∨
    (isScript p = false ∧ isMarkdown p = false ∧ isOther p = true) := by
  have hig := not_ignored_of_matches p h
  by_cases h2 : (pySuffix (fileName p) == ".py") = true
  · exact Or.inl (by refine ⟨?_, ?_, ?_⟩ <;>
      simp [isScript, isMarkdown, isOther, hig, h2])
  · have h2' : (pySuffix (fileName p) == ".py") = false :=
      Bool.eq_false_iff.2 h2
    by_cases h3 : (pySuffix (fileName p) == ".md") = true
    · exact Or.inr (Or.inl (by refine ⟨?_, ?_, ?_⟩ <;>
        simp [isScript, isMarkdown, isOther, hig, h2', h3]))
    · have h3' : (pySuffix (fileName p) == ".md") = false :=
        Bool.eq_false_iff.2 h3
      by_cases h4 : other_suffixes.contains (pySuffix (fileName p)) = true
      · have h4m : pySuffix (fileName p) ∈ other_suffixes := by simpa using h4
        exact Or.inr (Or.inr (by refine ⟨?_, ?_, ?_⟩ <;>
          simp [isScript, isMarkdown, isOther, hig, h2', h3', h4, h4m]))
      · exfalso
        have h4' : other_suffixes.contains (pySuffix (fileName p)) = false :=
          Bool.eq_false_iff.2 h4
        have h4m : pySuffix (fileName p) ∉ other_suffixes := by simpa using h4'
        simp [matchesCategory, isScript, isMarkdown, isOther, hig, h2', h3', h4',
          h4m] at h

lemma count_filter_pos (files : List RelPath) (p : RelPath)
    (flag : RelPath → Bool) (hnd : files.Nodup) (hm : p ∈ files)
    (hf : flag p = true) : (files.filter flag).count p = 1 := by
  rw [List.count_filter hf]
  exact count_eq_one_of_nodup_mem hnd hm

lemma count_filter_neg (files : List RelPath) (p : RelPath)
    (flag : RelPath → Bool) (hf : flag p = false) :
    (files.filter flag).count p = 0 := by
  rw [List.count_eq_zero]
  intro hmem
  rw [(List.mem_filter.1 hmem).2] at hf
  cases hf

end index_generator

/-- C5: on a duplicate-free traversal, every file kept by a variant's
exclusion rules appears exactly once in that variant's rendered link list,
and it belongs to exactly one group of the grouping: in the
directory-grouped variant, exactly one parent-directory group contains it;
in the category-grouped variant, exactly one of the three category buckets
contains it. -/
theorem c5_unique_listing (files : List IndexTools.RelPath)
    (p : IndexTools.RelPath) (hnd : files.Nodup) (hp : p ∈ files) :
    (create_obsidian_index.keepsMdFile p = true →
      (create_obsidian_index.renderedFiles files).count p = 1 ∧
      ∃! k, p ∈ create_obsidian_index.lookupGroup
        (create_obsidian_index.scan_markdown_files files) k) ∧
    (index_generator.matchesCategory p = true →
      (index_generator.renderedFiles files).count p = 1 ∧
      index_generator.bucketsContaining (index_generator.scan_directory files) p
        = 1) := by
  constructor
  · intro hkeep
    constructor
    · rw [IndexTools.count_eq_of_perm (create_obsidian_index.renderedFiles_perm files)]
      exact index_generator.count_filter_pos files p _ hnd hp hkeep
    · refine ⟨create_obsidian_index.parentKey p, ?_, ?_⟩
      · show p ∈ create_obsidian_index.lookupGroup
          (create_obsidian_index.scan_markdown_files files)
          (create_obsidian_index.parentKey p)
        rw [create_obsidian_index.lookupGroup_scan]
        exact List.mem_filter.2 ⟨List.mem_filter.2 ⟨hp, hkeep⟩, by simp⟩
      · intro k hk
        have hk' : p ∈ create_obsidian_index.lookupGroup
            (create_obsidian_index.scan_markdown_files files) k := hk
        rw [create_obsidian_index.lookupGroup_scan] at hk'
        have hbeq : (create_obsidian_index.parentKey p == k) = true := by
          simpa using (List.mem_filter.1 hk').2
        exact (eq_of_beq hbeq).symm
  · intro hmc
    have hsplit := index_generator.flags_split p hmc
    constructor
    · rw [IndexTools.count_eq_of_perm (index_generator.renderedFiles2_perm files)]
      rw [List.count_append, List.count_append]
      rcases hsplit with ⟨f1, f2, f3⟩ | ⟨f1, f2, f3⟩ | ⟨f1, f2, f3⟩
      · rw [index_generator.count_filter_pos files p _ hnd hp f1,
          index_generator.count_filter_neg files p _ f2,
          index_generator.count_filter_neg files p _ f3]
      · rw [index_generator.count_filter_neg files p _ f1,
          index_generator.count_filter_pos files p _ hnd hp f2,
          index_generator.count_filter_neg files p _ f3]
      · rw [index_generator.count_filter_neg files p _ f1,
          index_generator.count_filter_neg files p _ f2,
          index_generator.count_filter_pos files p _ hnd hp f3]
    · have hs := index_generator.mem_scripts_iff files p
      have hm := index_generator.mem_markdown_iff files p
      have ho := index_generator.mem_other_iff files p
      unfold index_generator.bucketsContaining
      rcases hsplit with ⟨f1, f2, f3⟩ | ⟨f1, f2, f3⟩ | ⟨f1, f2, f3⟩ <;>
        simp [List.countP_cons, hs, hm, ho, hp, f1, f2, f3]

/-- Witness for `c5_unique_listing` on a two-file tree. -/
theorem c5_unique_listing_witness :
    (create_obsidian_index.renderedFiles [["a.md"], ["b.py"]]).count ["a.md"] = 1 ∧
    (index_generator.renderedFiles [["a.md"], ["b.py"]]).count ["b.py"] = 1 :=
  ⟨((c5_unique_listing [["a.md"], ["b.py"]] ["a.md"] (by decide) (by decide)).1
      (by decide)).1,
   ((c5_unique_listing [["a.md"], ["b.py"]] ["b.py"] (by decide) (by decide)).2
      (by decide)).1⟩

namespace index_generator

open IndexTools List

lemma get_file_description_some (p : RelPath) (lines : List String)
    (hpy : pySuffix (fileName p) = ".py") :
    get_file_description p (some lines) =
      String.mk (docstringScan (lines.map String.data) false) := by
  simp [get_file_description, hpy]

end index_generator

/-- C9: in the category-grouped variant, a Python script whose leading
lines form a triple-quote-delimited comment block gets, as its index-entry
description, the block's first non-empty content line (or, when the
opening delimiter line carries inline content, that inline content), and a
failed read yields an empty description.  The hypotheses say that the
lines before the block contain no delimiter, that the opening line strips
to exactly the delimiter, that the lines before the first content line
strip to nothing, and that the content line is non-empty and contains no
delimiter. -/
theorem c9_description_extraction
    (p : IndexTools.RelPath) (contents : IndexTools.RelPath → Option (List String))
    (pre blanks rest : List String) (opener c : String)
    (hpy : IndexTools.pySuffix (IndexTools.fileName p) = ".py")
    (hread : contents p = some (pre ++ opener :: (blanks ++ c :: rest)))
    (hpre : ∀ l ∈ pre, IndexTools.containsSub index_generator.tqd
        (IndexTools.pyStrip l.data) = false ∧
      IndexTools.containsSub index_generator.tqs (IndexTools.pyStrip l.data) = false)
    (hop : IndexTools.pyStrip opener.data = index_generator.tqd)
    (hblanks : ∀ l ∈ blanks, IndexTools.pyStrip l.data = [])
    (hc1 : (IndexTools.pyStrip c.data).isEmpty = false)
    (hc2 : IndexTools.containsSub index_generator.tqd
      (IndexTools.pyStrip c.data) = false)
    (hc3 : IndexTools.containsSub index_generator.tqs
      (IndexTools.pyStrip c.data) = false) :
    index_generator.get_file_description p (contents p) =
      String.mk (IndexTools.pyStrip c.data) ∧
    index_generator.scriptEntry contents p =
      index_generator.plainEntry p ++ " - " ++
        String.mk (IndexTools.pyStrip c.data) ∧
    index_generator.get_file_description p none = "" ∧
    (∀ (c2 : IndexTools.RelPath → Option (List String)) (pre2 : List String)
        (opener2 : String) (mid : List Char) (m0 mN : Char),
      c2 p = some (pre2 ++ [opener2]) →
      (∀ l ∈ pre2, IndexTools.containsSub index_generator.tqd
          (IndexTools.pyStrip l.data) = false ∧
        IndexTools.containsSub index_generator.tqs
          (IndexTools.pyStrip l.data) = false) →
      IndexTools.pyStrip opener2.data =
        index_generator.tqd ++ mid ++ index_generator.tqd →
      mid.head? = some m0 → mid.getLast? = some mN →
      m0 ≠ IndexTools.dquote → m0 ≠ IndexTools.squote →
      mN ≠ IndexTools.dquote → mN ≠ IndexTools.squote →
      (IndexTools.pyStrip mid).isEmpty = false →
      index_generator.get_file_description p (c2 p) =
        String.mk (IndexTools.pyStrip mid)) := by
  have hdesc : index_generator.get_file_description p (contents p) =
      String.mk (IndexTools.pyStrip c.data) := by
    rw [hread, index_generator.get_file_description_some p _ hpy]
    congr 1
    rw [List.map_append, List.map_cons, List.map_append, List.map_cons]
    rw [index_generator.docstringScan_nodelim_list _ _ (fun l hl => by
      rcases List.mem_map.1 hl with ⟨x, hx, rfl⟩
      exact hpre x hx)]
    rw [index_generator.docstringScan_opener_plain _ _ hop]
    rw [index_generator.docstringScan_blank_list _ _ (fun l hl => by
      rcases List.mem_map.1 hl with ⟨x, hx, rfl⟩
      exact hblanks x hx)]
    exact index_generator.docstringScan_content _ _ hc2 hc3 hc1
  have hne : String.mk (IndexTools.pyStrip c.data) ≠ "" := by
    intro hh
    have hd : IndexTools.pyStrip c.data = [] := by
      simpa using String.ext_iff.1 hh
    rw [hd] at hc1
    cases hc1
  refine ⟨hdesc, ?_, ?_, ?_⟩
  · have hform : index_generator.scriptEntry contents p =
        if index_generator.get_file_description p (contents p) ≠ "" then
          index_generator.plainEntry p ++ " - " ++
            index_generator.get_file_description p (contents p)
        else index_generator.plainEntry p := rfl
    rw [hform, hdesc, if_pos hne]
  · unfold index_generator.get_file_description
    split <;> rfl
  · intro c2 pre2 opener2 mid m0 mN hread2 hpre2 hop2 hh hl h0 h0' hN hN' hmid
    rw [hread2, index_generator.get_file_description_some p _ hpy]
    congr 1
    rw [List.map_append, List.map_cons, List.map_nil]
    rw [index_generator.docstringScan_nodelim_list _ _ (fun l hl' => by
      rcases List.mem_map.1 hl' with ⟨x, hx, rfl⟩
      exact hpre2 x hx)]
    exact index_generator.docstringScan_opener_inline _ _ mid hop2 m0 mN hh hl
      h0 h0' hN hN' hmid

/-- Witness for `c9_description_extraction`: `script.py` with the leading
block whose first content line is `Does a thing.` gets exactly that
description, and an opening line carrying the inline content `Inline doc.`
yields that content. -/
theorem c9_description_extraction_witness :
    index_generator.scriptEntry
        (fun _ => some [String.mk index_generator.tqd, "Does a thing.",
          String.mk index_generator.tqd]) ["script.py"] =
      index_generator.plainEntry ["script.py"] ++ " - " ++
        String.mk (IndexTools.pyStrip "Does a thing.".data) ∧
    index_generator.get_file_description ["script.py"]
        (some [String.mk (index_generator.tqd ++ "Inline doc.".data ++
          index_generator.tqd)]) =
      String.mk (IndexTools.pyStrip "Inline doc.".data) := by
  have h := c9_description_extraction ["script.py"]
    (fun _ => some [String.mk index_generator.tqd, "Does a thing.",
      String.mk index_generator.tqd])
    [] [] [String.mk index_generator.tqd] (String.mk index_generator.tqd)
    "Does a thing." (by decide) rfl (by simp) (by decide) (by simp)
    (by decide) (by decide) (by decide)
  refine ⟨h.2.1, ?_⟩
  exact h.2.2.2
    (fun _ => some [String.mk (index_generator.tqd ++ "Inline doc.".data ++
      index_generator.tqd)])
    [] (String.mk (index_generator.tqd ++ "Inline doc.".data ++
      index_generator.tqd))
    "Inline doc.".data 'I' '.' rfl (by simp) (by decide) (by decide)
    (by decide) (by decide) (by decide) (by decide) (by decide) (by decide)
